import Mathlib

/-!
Shallow embedding of the retrieval-orchestration and evidence-fusion core of
the Medical-QA RAG backend (`backend/agents/agent_controller.py`,
`backend/config.py`, `backend/models/__init__.py`), together with theorems
settling the frozen claims about it.

Python floats are modelled as rationals; Python dicts (which preserve
insertion order) are modelled as association lists with insertion-order
updates; Python exceptions are modelled with `Except`.
-/

namespace MedRAG

/-- models/__init__.py: `UserMode` enum. -/
inductive UserMode where
  | DOCTOR
  | PATIENT
deriving DecidableEq, Repr

/-- models/__init__.py: `QueryType` enum. -/
inductive QueryType where
  | DEFINITION
  | CONTEXTUAL
  | COMPLEX
deriving DecidableEq, Repr

/-- models/__init__.py: `RetrievalStrategy` enum. -/
inductive RetrievalStrategy where
  | KG_ONLY
  | VECTOR_ONLY
  | SPARSE_ONLY
  | DENSE_SPARSE
  | HYBRID
  | FULL_HYBRID
deriving DecidableEq, Repr

/-- Python `str(strategy)` for a `(str, Enum)` member: "ClassName.MEMBER"
(used when agent_controller.py stores `str(original_strategy)` in metadata). -/
def strategyStr : RetrievalStrategy → String
  | .KG_ONLY => "RetrievalStrategy.KG_ONLY"
  | .VECTOR_ONLY => "RetrievalStrategy.VECTOR_ONLY"
  | .SPARSE_ONLY => "RetrievalStrategy.SPARSE_ONLY"
  | .DENSE_SPARSE => "RetrievalStrategy.DENSE_SPARSE"
  | .HYBRID => "RetrievalStrategy.HYBRID"
  | .FULL_HYBRID => "RetrievalStrategy.FULL_HYBRID"

/-- models/__init__.py: `MedicalEntity`. -/
structure MedicalEntity where
  text : String
  entity_type : String
  umls_concept : Option String
  confidence : ℚ
deriving DecidableEq, Repr

/-- models/__init__.py: `ProcessedQuery`. -/
structure ProcessedQuery where
  original_question : String
  normalized_question : String
  entities : List MedicalEntity
  query_type : QueryType
  suggested_strategy : RetrievalStrategy
  detected_mode : UserMode
deriving DecidableEq, Repr

/-- models/__init__.py: `RetrievedEvidence` (metadata dict kept as a
string-valued association list; its contents are never inspected by the
orchestration core). -/
structure RetrievedEvidence where
  source_type : String
  content : String
  confidence : ℚ
  metadata : List (String × String)
deriving DecidableEq, Repr

/-- A Python value stored in the fusion-metadata dict. -/
inductive MetaVal where
  | mb (b : Bool)
  | ms (s : String)
  | mq (v : ℚ)
deriving DecidableEq, Repr

/-- models/__init__.py: `FusedEvidence`. -/
structure FusedEvidence where
  evidences : List RetrievedEvidence
  combined_confidence : ℚ
  fusion_method : String
  metadata : List (String × MetaVal)
deriving DecidableEq, Repr

/-- A Python exception escaping the orchestration core. -/
inductive PyError where
  | attributeError (cls attr : String)
  | backendError (msg : String)
deriving DecidableEq, Repr

/-- A Python attribute value, as far as the orchestration core inspects it. -/
inductive PyVal where
  | pbool (b : Bool)
  | pint (n : ℤ)
  | prat (v : ℚ)
  | pstr (s : String)
  | pnone
  | pother (desc : String)
deriving DecidableEq, Repr

/-- Python truthiness of an attribute value. -/
def PyVal.truthy : PyVal → Bool
  | .pbool b => b
  | .pint n => decide (n ≠ 0)
  | .prat v => decide (v ≠ 0)
  | .pstr s => decide (s ≠ "")
  | .pnone => false
  | .pother _ => true

/-- Coerce an attribute value to a natural number (with a default for the
never-exercised non-integer cases). -/
def PyVal.toNatD (d : ℕ) : PyVal → ℕ
  | .pint n => n.toNat
  | _ => d

/-- Coerce an attribute value to a rational (with a default for the
never-exercised non-numeric cases). -/
def PyVal.toRatD (d : ℚ) : PyVal → ℚ
  | .prat v => v
  | .pint n => (n : ℚ)
  | _ => d

/-- config.py:96 `FUSION_WEIGHT_KG = 0.5`. -/
def FUSION_WEIGHT_KG : ℚ := 1/2

/-- config.py:97 `FUSION_WEIGHT_VECTOR = 0.3`. -/
def FUSION_WEIGHT_VECTOR : ℚ := 3/10

/-- config.py:98 `FUSION_WEIGHT_SPARSE = 0.2`. -/
def FUSION_WEIGHT_SPARSE : ℚ := 1/5

/-- config.py:101 `RRF_K = 60`. -/
def RRF_K : ℕ := 60

/-- The attributes the `Settings` instance in config.py actually has
(its declared pydantic fields, with their declared defaults; environment
variables can change the values of declared fields but cannot add
attributes, so the domain of this table is environment-independent).
Neither `pubmed_enabled` nor `top_k_pubmed` is declared. -/
def settingsAttr : String → Option PyVal
  | "openai_api_key" => some .pnone
  | "huggingface_api_key" => some .pnone
  | "neo4j_uri" => some (.pstr "bolt://localhost:7687")
  | "neo4j_user" => some (.pstr "neo4j")
  | "neo4j_password" => some (.pstr "password")
  | "base_dir" => some (.pother "Path")
  | "data_dir" => some (.pother "Path")
  | "vector_store_path" => some (.pother "Path")
  | "medquad_path" => some (.pother "Path")
  | "pubmed_path" => some (.pother "Path")
  | "umls_path" => some (.pother "Path")
  | "log_file" => some (.pother "Path")
  | "embedding_model" => some (.pstr "dmis-lab/biobert-base-cased-v1.2")
  | "llm_model" => some (.pstr "microsoft/BioGPT-Large")
  | "llm_temperature" => some (.prat (3/10))
  | "llm_max_tokens" => some (.pint 512)
  | "top_k_vector" => some (.pint 5)
  | "top_k_kg" => some (.pint 3)
  | "similarity_threshold" => some (.prat (1/2))
  | "enable_safety_reflection" => some (.pbool true)
  | "enable_content_filter" => some (.pbool true)
  | "app_host" => some (.pstr "0.0.0.0")
  | "app_port" => some (.pint 8000)
  | "debug_mode" => some (.pbool true)
  | "log_level" => some (.pstr "INFO")
  | "cors_origins" => some (.pother "list")
  | _ => none

/-- The attributes the `AgentConfig` class in config.py actually defines
(config.py lines 74-104). Neither `ENABLE_HYBRID_FALLBACK` nor
`FALLBACK_CONFIDENCE_THRESHOLD` nor `FUSION_WEIGHT_PUBMED` is defined. -/
def agentConfigAttr : String → Option PyVal
  | "DEFINITION_KEYWORDS" => some (.pother "list")
  | "CONTEXTUAL_KEYWORDS" => some (.pother "list")
  | "COMPLEX_KEYWORDS" => some (.pother "list")
  | "STRATEGY_KG_ONLY" => some (.pstr "kg_only")
  | "STRATEGY_VECTOR_ONLY" => some (.pstr "vector_only")
  | "STRATEGY_SPARSE_ONLY" => some (.pstr "sparse_only")
  | "STRATEGY_DENSE_SPARSE" => some (.pstr "dense_sparse")
  | "STRATEGY_HYBRID" => some (.pstr "hybrid")
  | "STRATEGY_FULL_HYBRID" => some (.pstr "full_hybrid")
  | "KG_CONFIDENCE_THRESHOLD" => some (.prat (4/5))
  | "VECTOR_CONFIDENCE_THRESHOLD" => some (.prat (7/10))
  | "SPARSE_CONFIDENCE_THRESHOLD" => some (.prat (3/5))
  | "FUSION_WEIGHT_KG" => some (.prat FUSION_WEIGHT_KG)
  | "FUSION_WEIGHT_VECTOR" => some (.prat FUSION_WEIGHT_VECTOR)
  | "FUSION_WEIGHT_SPARSE" => some (.prat FUSION_WEIGHT_SPARSE)
  | "RRF_K" => some (.pint 60)
  | _ => none

/-- Python `getattr(obj, name)` through an attribute table: raises
`AttributeError` when the attribute is absent. -/
def getattrE (attr : String → Option PyVal) (cls name : String) :
    Except PyError PyVal :=
  match attr name with
  | some v => Except.ok v
  | none => Except.error (PyError.attributeError cls name)

/-- Python `getattr(agent_config, name, default)` for the rational fusion
weights (agent_controller.py lines 217 and 221). -/
def getattrQ (name : String) (default : ℚ) : ℚ :=
  match agentConfigAttr name with
  | some (.prat v) => v
  | some _ => default
  | none => default

/-- First-match association-list lookup (Python `key in dict` / `dict[key]`). -/
def alookup {β : Type} (c : String) : List (String × β) → Option β
  | [] => none
  | p :: t => if p.1 = c then some p.2 else alookup c t

/-- The keys of an association list. -/
def akeys {β : Type} (l : List (String × β)) : List String := l.map (·.1)

/-- Python dict assignment `d[key] = v`: updates in place when the key is
present, else appends at the end (insertion order). -/
def dictSet (d : List (String × MetaVal)) (key : String) (v : MetaVal) :
    List (String × MetaVal) :=
  match alookup key d with
  | some _ => d.map (fun p => if p.1 = key then (p.1, v) else p)
  | none => d ++ [(key, v)]

/-- Python `list.sort(key=lambda x: x.confidence, reverse=True)`: a stable
sort, descending by confidence (`le a b` holds when `a` may precede `b`). -/
def confDescLe (a b : RetrievedEvidence) : Bool := decide (b.confidence ≤ a.confidence)

/-- agent_controller.py lines 61-66: group the evidences by `source_type`
into an insertion-ordered dict of lists (each new source appended at the
end, each evidence appended at the end of its group). -/
def groupInsert (groups : List (String × List RetrievedEvidence))
    (e : RetrievedEvidence) : List (String × List RetrievedEvidence) :=
  match alookup e.source_type groups with
  | some _ => groups.map (fun p => if p.1 = e.source_type then (p.1, p.2 ++ [e]) else p)
  | none => groups ++ [(e.source_type, [e])]

/-- agent_controller.py lines 61-66: `source_groups`. -/
def source_groups (evidences : List RetrievedEvidence) :
    List (String × List RetrievedEvidence) :=
  evidences.foldl groupInsert []

/-- agent_controller.py lines 69-70: each group sorted by confidence,
descending (original ranking). -/
def sortedGroups (evidences : List RetrievedEvidence) :
    List (String × List RetrievedEvidence) :=
  (source_groups evidences).map (fun g => (g.1, g.2.mergeSort confDescLe))

/-- One value of the `rrf_scores` dict of agent_controller.py lines 83-89. -/
structure RRFEntry where
  score : ℚ
  evidence : RetrievedEvidence
deriving DecidableEq, Repr

/-- agent_controller.py lines 83-89: accumulate one RRF contribution into the
`rrf_scores` dict — add to the score of an existing key, or insert a new
entry (at the end, per dict insertion order) keeping this evidence object. -/
def rrfUpdate (scores : List (String × RRFEntry)) (docId : String) (s : ℚ)
    (e : RetrievedEvidence) : List (String × RRFEntry) :=
  match alookup docId scores with
  | some _ =>
      scores.map (fun p => if p.1 = docId then (p.1, ⟨p.2.score + s, p.2.evidence⟩) else p)
  | none => scores ++ [(docId, ⟨s, e⟩)]

/-- agent_controller.py lines 76-89, inner loop: `for rank, evidence in
enumerate(source_evidences)`, contributing `1.0 / (k + rank + 1)` under the
key `evidence.content`. -/
def rrfGroupFold (k : ℕ) (scores : List (String × RRFEntry))
    (group : List RetrievedEvidence) : List (String × RRFEntry) :=
  group.enum.foldl
    (fun sc re => rrfUpdate sc re.2.content (1 / ((k : ℚ) + re.1 + 1)) re.2) scores

/-- agent_controller.py lines 73-89: the `rrf_scores` dict after both loops. -/
def rrf_scores (k : ℕ) (evidences : List RetrievedEvidence) :
    List (String × RRFEntry) :=
  (sortedGroups evidences).foldl (fun sc g => rrfGroupFold k sc g.2) []

/-- Python `sorted(rrf_scores.values(), key=lambda x: x.score, reverse=True)`
on the dict entries (the keys are carried along unchanged). -/
def entryDescLe (a b : String × RRFEntry) : Bool := decide (b.2.score ≤ a.2.score)

/-- agent_controller.py lines 45-102: `_reciprocal_rank_fusion`. The final
loop overwrites each kept evidence object's confidence with its accumulated
RRF score. -/
def reciprocal_rank_fusion (evidences : List RetrievedEvidence) (k : ℕ := 60) :
    List RetrievedEvidence :=
  let ranked := (rrf_scores k evidences).mergeSort entryDescLe
  ranked.map (fun p => { p.2.evidence with confidence := p.2.score })

/-- agent_controller.py lines 209-221: the per-source weight applied in the
weighted-fusion branch (`kg` and `vector` read the config attribute
directly; `sparse` and `pubmed` go through `getattr` with default 0.5; an
evidence of any other source is in none of the four filtered lists, so its
confidence is left unchanged). -/
def weightOf (source_type : String) : ℚ :=
  if source_type = "kg" then FUSION_WEIGHT_KG
  else if source_type = "vector" then FUSION_WEIGHT_VECTOR
  else if source_type = "sparse" then getattrQ "FUSION_WEIGHT_SPARSE" (1/2)
  else if source_type = "pubmed" then getattrQ "FUSION_WEIGHT_PUBMED" (1/2)
  else 1

/-- The in-place `evidence.confidence *= weight` mutation of the partitioned
sublists of agent_controller.py lines 209-221, expressed as one map over the
full list (each evidence belongs to exactly the bucket of its source type). -/
def reweight (e : RetrievedEvidence) : RetrievedEvidence :=
  { e with confidence := e.confidence * weightOf e.source_type }

/-- agent_controller.py lines 171-243: `fuse_evidence` (the `query` argument
is unused by the code). -/
def fuse_evidence (evidences : List RetrievedEvidence) : FusedEvidence :=
  if evidences.isEmpty then
    { evidences := [], combined_confidence := 0, fusion_method := "none", metadata := [] }
  else
    let vector_evidences := evidences.filter (fun e => e.source_type = "vector")
    let sparse_evidences := evidences.filter (fun e => e.source_type = "sparse")
    let pr :=
      if !sparse_evidences.isEmpty && !vector_evidences.isEmpty then
        ("reciprocal_rank_fusion", reciprocal_rank_fusion evidences 60)
      else
        ("weighted_fusion", (evidences.map reweight).mergeSort confDescLe)
    let fused := pr.2
    let combined_confidence :=
      if fused.isEmpty then 0 else ((fused.map (·.confidence)).sum) / (fused.length : ℚ)
    { evidences := fused, combined_confidence := combined_confidence,
      fusion_method := pr.1, metadata := [] }

/-- Python `round(x, 2)` on a rational: round half to even at two decimal
places. -/
def round2 (x : ℚ) : ℚ :=
  let y := x * 100
  let f : ℤ := Rat.floor y
  let r := y - f
  (if r < 1/2 then (f : ℚ)
   else if 1/2 < r then (f : ℚ) + 1
   else if f % 2 = 0 then (f : ℚ) else (f : ℚ) + 1) / 100

/-- The four retrieval backends the controller holds, plus the literature
retriever's own `enabled` flag; each backend call either returns evidences
or raises. -/
structure BackendEnv where
  kg : ProcessedQuery → Except PyError (List RetrievedEvidence)
  vector : ProcessedQuery → Except PyError (List RetrievedEvidence)
  sparse : ProcessedQuery → Except PyError (List RetrievedEvidence)
  pubmed : ProcessedQuery → ℕ → Except PyError (List RetrievedEvidence)
  pubmedRetrieverEnabled : Bool

/-- agent_controller.py lines 29-43: `decide_strategy` returns the
upstream-suggested strategy unchanged. -/
def decide_strategy (q : ProcessedQuery) : RetrievalStrategy :=
  q.suggested_strategy

/-- agent_controller.py lines 119-156: the strategy → backend branching.
No backend call is wrapped in a try/except, so a raising backend propagates
its error out of the dispatcher. -/
def mappedRetrieve (env : BackendEnv) (q : ProcessedQuery) :
    RetrievalStrategy → Except PyError (List RetrievedEvidence)
  | .KG_ONLY => env.kg q
  | .VECTOR_ONLY => env.vector q
  | .SPARSE_ONLY => env.sparse q
  | .DENSE_SPARSE => do
      let vector_evidences ← env.vector q
      let sparse_evidences ← env.sparse q
      pure (vector_evidences ++ sparse_evidences)
  | .HYBRID => do
      let kg_evidences ← env.kg q
      let vector_evidences ← env.vector q
      pure (kg_evidences ++ vector_evidences)
  | .FULL_HYBRID => do
      let kg_evidences ← env.kg q
      let vector_evidences ← env.vector q
      let sparse_evidences ← env.sparse q
      pure (kg_evidences ++ vector_evidences ++ sparse_evidences)

/-- Modelled from the spec: config.py declares neither `pubmed_enabled` nor
`top_k_pubmed` on `Settings`, and neither `ENABLE_HYBRID_FALLBACK` nor
`FALLBACK_CONFIDENCE_THRESHOLD` on `AgentConfig`, yet agent_controller.py
reads all four. Following the spec's configuration surface (literature-
augmentation enable flag, per-backend result-count limit, fallback enable
flag, fallback confidence threshold with default 0.5), the four values are
supplied here as parameters. -/
structure OrchestratorConfig where
  pubmed_enabled : Bool
  top_k_pubmed : ℕ
  ENABLE_HYBRID_FALLBACK : Bool
  FALLBACK_CONFIDENCE_THRESHOLD : ℚ

/-- agent_controller.py lines 104-169: `retrieve_with_strategy`, with the
four config values supplied (see `OrchestratorConfig`). Only the literature
call (line 161-166) is wrapped in try/except; its failure contributes no
evidence. -/
def retrieve_with_strategy (cfg : OrchestratorConfig) (env : BackendEnv)
    (q : ProcessedQuery) (strategy : RetrievalStrategy) :
    Except PyError (List RetrievedEvidence) := do
  let evidences ← mappedRetrieve env q strategy
  if cfg.pubmed_enabled && env.pubmedRetrieverEnabled then
    match env.pubmed q cfg.top_k_pubmed with
    | .ok pubmed_evidences => pure (evidences ++ pubmed_evidences)
    | .error _ => pure evidences
  else
    pure evidences

/-- The fallback-provenance metadata writes of agent_controller.py lines
294-299 (the `original_confidence` value stored there is
`round(fused.combined_confidence, 2)` of the post-retry result, since
`fused` has already been reassigned at line 286). -/
def fallbackMeta (md : List (String × MetaVal)) (original_strategy : RetrievalStrategy)
    (post_retry_confidence : ℚ) : List (String × MetaVal) :=
  dictSet
    (dictSet
      (dictSet
        (dictSet md "fallback_applied" (.mb true))
        "original_strategy" (.ms (strategyStr original_strategy)))
      "fallback_strategy" (.ms "full_hybrid"))
    "original_confidence" (.mq (round2 post_retry_confidence))

/-- agent_controller.py lines 245-312: `execute`, with the four config
values supplied (see `OrchestratorConfig`). -/
def execute (cfg : OrchestratorConfig) (env : BackendEnv) (q : ProcessedQuery) :
    Except PyError FusedEvidence := do
  let strategy := decide_strategy q
  let original_strategy := strategy
  let evidences ← retrieve_with_strategy cfg env q strategy
  let fused := fuse_evidence evidences
  if cfg.ENABLE_HYBRID_FALLBACK then
    let confidence_threshold := cfg.FALLBACK_CONFIDENCE_THRESHOLD
    if fused.combined_confidence < confidence_threshold then
      if strategy ≠ RetrievalStrategy.FULL_HYBRID then
        let evidences2 ← retrieve_with_strategy cfg env q RetrievalStrategy.FULL_HYBRID
        let fused2 := fuse_evidence evidences2
        pure { fused2 with
               metadata := fallbackMeta fused2.metadata original_strategy
                 fused2.combined_confidence }
      else
        pure fused
    else
      pure fused
  else
    pure fused

/-- agent_controller.py lines 104-169 as written, reading
`settings.pubmed_enabled` (line 159, outside the try) and
`settings.top_k_pubmed` (line 162, inside the try) through the actual
attribute table of config.py's `Settings`. -/
def retrieve_with_strategyPy (env : BackendEnv) (q : ProcessedQuery)
    (strategy : RetrievalStrategy) : Except PyError (List RetrievedEvidence) := do
  let evidences ← mappedRetrieve env q strategy
  let pubmed_enabled ← getattrE settingsAttr "Settings" "pubmed_enabled"
  if pubmed_enabled.truthy && env.pubmedRetrieverEnabled then
    match (do
        let top_k ← getattrE settingsAttr "Settings" "top_k_pubmed"
        env.pubmed q (top_k.toNatD 0)) with
    | .ok pubmed_evidences => pure (evidences ++ pubmed_evidences)
    | .error _ => pure evidences
  else
    pure evidences

/-- agent_controller.py lines 245-312 as written, reading
`agent_config.ENABLE_HYBRID_FALLBACK` (line 271) and
`agent_config.FALLBACK_CONFIDENCE_THRESHOLD` (line 272) through the actual
attribute table of config.py's `AgentConfig`. -/
def executePy (env : BackendEnv) (q : ProcessedQuery) :
    Except PyError FusedEvidence := do
  let strategy := decide_strategy q
  let original_strategy := strategy
  let evidences ← retrieve_with_strategyPy env q strategy
  let fused := fuse_evidence evidences
  let enable_fallback ← getattrE agentConfigAttr "AgentConfig" "ENABLE_HYBRID_FALLBACK"
  if enable_fallback.truthy then
    let ct ← getattrE agentConfigAttr "AgentConfig" "FALLBACK_CONFIDENCE_THRESHOLD"
    let confidence_threshold := ct.toRatD 0
    if fused.combined_confidence < confidence_threshold then
      if strategy ≠ RetrievalStrategy.FULL_HYBRID then
        let evidences2 ← retrieve_with_strategyPy env q RetrievalStrategy.FULL_HYBRID
        let fused2 := fuse_evidence evidences2
        pure { fused2 with
               metadata := fallbackMeta fused2.metadata original_strategy
                 fused2.combined_confidence }
      else
        pure fused
    else
      pure fused
  else
    pure fused

end MedRAG

namespace MedRAG

/-- Spec-side description of the RRF contribution stream: the groups in
first-appearance order, each group in descending original-confidence order,
each evidence enumerated with its zero-based within-group rank and mapped to
(content key, 1/(k+rank+1), evidence). -/
def contribsOf (k : ℕ) (evidences : List RetrievedEvidence) :
    List (String × ℚ × RetrievedEvidence) :=
  ((sortedGroups evidences).map
    (fun g => g.2.enum.map
      (fun re => (re.2.content, ((1 : ℚ) / ((k : ℚ) + re.1 + 1), re.2))))).flatten

/-- Sum of the contributions carrying key `c`. -/
def keyScore (c : String) (l : List (String × ℚ × RetrievedEvidence)) : ℚ :=
  ((l.filter (fun p => p.1 = c)).map (fun p => p.2.1)).sum

/-- The evidence of the first contribution carrying key `c`. -/
def keyFirst (c : String) (l : List (String × ℚ × RetrievedEvidence)) :
    Option RetrievedEvidence :=
  (l.find? (fun p => p.1 = c)).map (fun p => p.2.2)

/-- One step of the rrf_scores accumulation, uncurried. -/
def rrfStep (sc : List (String × RRFEntry)) (p : String × ℚ × RetrievedEvidence) :
    List (String × RRFEntry) := rrfUpdate sc p.1 p.2.1 p.2.2

/-- The evidences in RRF processing order: source groups in order of first
appearance, each sorted by original confidence descending. -/
def procOrder (evidences : List RetrievedEvidence) : List RetrievedEvidence :=
  ((sortedGroups evidences).map (fun g => g.2)).flatten

/-- Spec-side accumulated RRF score of a content key: the sum, over every
group and every rank `r` at which an evidence with this content sits in the
group's descending order, of `1 / (k + r + 1)`. -/
def rrfSpecScore (evidences : List RetrievedEvidence) (k : ℕ) (c : String) : ℚ :=
  ((sortedGroups evidences).map (fun g =>
    ((g.2.enum.filter (fun re => re.2.content = c)).map
      (fun re => (1 : ℚ) / ((k : ℚ) + re.1 + 1))).sum)).sum

theorem rrf_scores_eq_fold (k : ℕ) (es : List RetrievedEvidence) :
    rrf_scores k es = (contribsOf k es).foldl rrfStep [] := by
  unfold rrf_scores contribsOf rrfGroupFold rrfStep
  rw [List.foldl_flatten, List.foldl_map]
  congr 1
  funext sc g
  rw [List.foldl_map]

theorem alookup_map_modify {f : RRFEntry → RRFEntry} {d : String}
    (l : List (String × RRFEntry)) (c : String) :
    alookup c (l.map (fun p => if p.1 = d then (p.1, f p.2) else p)) =
      if c = d then (alookup c l).map f else alookup c l := by
  induction l with
  | nil => by_cases h : c = d <;> simp [alookup, h]
  | cons p t ih =>
      by_cases hp : p.1 = d
      · by_cases hq : p.1 = c
        · have hcd : c = d := hq.symm.trans hp
          simp [alookup, hp, hq, ih, hcd]
        · have hcd : ¬ c = d := fun h => hq (hp.trans h.symm)
          have hdc : ¬ d = c := fun h => hcd h.symm
          simp [alookup, hp, hq, ih, hcd, hdc]
      · by_cases hq : p.1 = c
        · have hcd : ¬ c = d := fun h => hp ((hq.trans h))
          have hdc : ¬ d = c := fun h => hcd h.symm
          simp [alookup, hp, hq, ih, hcd, hdc]
        · simp [alookup, hp, hq, ih]

theorem alookup_append_singleton {β : Type} (l : List (String × β)) (d : String)
    (v : β) (c : String) :
    alookup c (l ++ [(d, v)]) =
      match alookup c l with
      | some w => some w
      | none => if d = c then some v else none := by
  induction l with
  | nil => simp [alookup]
  | cons p t ih =>
      by_cases hp : p.1 = c <;> simp [alookup, hp, ih]

theorem alookup_rrfUpdate (sc : List (String × RRFEntry)) (d : String) (s : ℚ)
    (e : RetrievedEvidence) (c : String) :
    alookup c (rrfUpdate sc d s e) =
      if c = d then
        some (match alookup d sc with
              | some en => ⟨en.score + s, en.evidence⟩
              | none => ⟨s, e⟩)
      else alookup c sc := by
  cases hd : alookup d sc with
  | some en =>
      have hu : rrfUpdate sc d s e =
          sc.map (fun p => if p.1 = d
            then (p.1, (⟨p.2.score + s, p.2.evidence⟩ : RRFEntry)) else p) := by
        unfold rrfUpdate
        rw [hd]
      rw [hu, alookup_map_modify (f := fun en => ⟨en.score + s, en.evidence⟩)]
      by_cases hc : c = d
      · subst hc
        simp [hd]
      · simp [hc]
  | none =>
      have hu : rrfUpdate sc d s e = sc ++ [(d, (⟨s, e⟩ : RRFEntry))] := by
        unfold rrfUpdate
        rw [hd]
      rw [hu, alookup_append_singleton]
      by_cases hc : c = d
      · subst hc
        simp [hd]
      · have hdc : ¬ d = c := fun h => hc h.symm
        cases hcl : alookup c sc <;> simp [hc, hdc, hcl]

theorem alookup_foldl_rrfStep (l : List (String × ℚ × RetrievedEvidence))
    (acc : List (String × RRFEntry)) (c : String) :
    alookup c (l.foldl rrfStep acc) =
      match alookup c acc with
      | some en => some ⟨en.score + keyScore c l, en.evidence⟩
      | none => (keyFirst c l).map (fun e => ⟨keyScore c l, e⟩) := by
  induction l generalizing acc with
  | nil =>
      cases h : alookup c acc <;> simp [keyScore, keyFirst, h]
  | cons p t ih =>
      rw [List.foldl_cons, ih]
      by_cases hc : c = p.1
      · subst hc
        have hkS : keyScore p.1 (p :: t) = p.2.1 + keyScore p.1 t := by
          simp [keyScore, List.filter_cons]
        have hkF : keyFirst p.1 (p :: t) = some p.2.2 := by
          simp [keyFirst, List.find?_cons]
        rw [show rrfStep acc p = rrfUpdate acc p.1 p.2.1 p.2.2 from rfl]
        rw [alookup_rrfUpdate, if_pos rfl]
        cases h : alookup p.1 acc with
        | some en => simp [h, hkS, hkF, add_assoc]
        | none => simp [h, hkS, hkF]
      · have hpc : ¬ p.1 = c := fun h => hc h.symm
        have hkS : keyScore c (p :: t) = keyScore c t := by
          simp [keyScore, List.filter_cons, hpc]
        have hkF : keyFirst c (p :: t) = keyFirst c t := by
          simp [keyFirst, List.find?_cons, hpc]
        rw [show rrfStep acc p = rrfUpdate acc p.1 p.2.1 p.2.2 from rfl]
        rw [alookup_rrfUpdate, if_neg hc, hkS, hkF]

theorem alookup_eq_none_iff {β : Type} (c : String) (l : List (String × β)) :
    alookup c l = none ↔ c ∉ akeys l := by
  induction l with
  | nil => simp [alookup, akeys]
  | cons p t ih =>
      by_cases hp : p.1 = c
      · constructor
        · intro h
          simp [alookup, hp] at h
        · intro h
          exact absurd (by simp [akeys, hp, List.mem_map] : c ∈ akeys (p :: t)) h
      · have hstep : alookup c (p :: t) = alookup c t := by simp [alookup, hp]
        rw [hstep, ih]
        constructor
        · intro h hm
          rcases (by simpa [akeys] using hm : c = p.1 ∨ ∃ x, (c, x) ∈ t) with he | ⟨x, hx⟩
          · exact hp he.symm
          · refine h ?_
            simp only [akeys, List.mem_map]
            exact ⟨(c, x), hx, rfl⟩
        · intro h hm
          refine h ?_
          rcases (by simpa [akeys] using hm : ∃ x, (c, x) ∈ t) with ⟨x, hx⟩
          simp only [akeys, List.mem_map]
          exact ⟨(c, x), List.mem_cons_of_mem _ hx, rfl⟩

theorem akeys_rrfUpdate_of_mem (sc : List (String × RRFEntry)) (d : String)
    (s : ℚ) (e : RetrievedEvidence) (h : alookup d sc ≠ none) :
    akeys (rrfUpdate sc d s e) = akeys sc := by
  unfold rrfUpdate
  cases hd : alookup d sc with
  | some en =>
      simp only [akeys, List.map_map]
      apply List.map_congr_left
      intro p _
      by_cases hp : p.1 = d <;> simp [hp]
  | none => exact absurd hd h

theorem akeys_rrfUpdate_of_not_mem (sc : List (String × RRFEntry)) (d : String)
    (s : ℚ) (e : RetrievedEvidence) (h : alookup d sc = none) :
    akeys (rrfUpdate sc d s e) = akeys sc ++ [d] := by
  unfold rrfUpdate
  rw [h]
  simp [akeys]

theorem nodup_akeys_rrfUpdate (sc : List (String × RRFEntry)) (d : String)
    (s : ℚ) (e : RetrievedEvidence) (h : (akeys sc).Nodup) :
    (akeys (rrfUpdate sc d s e)).Nodup := by
  cases hd : alookup d sc with
  | some en =>
      rw [akeys_rrfUpdate_of_mem sc d s e (by rw [hd]; exact fun h => nomatch h)]
      exact h
  | none =>
      rw [akeys_rrfUpdate_of_not_mem sc d s e hd]
      have hd2 : d ∉ akeys sc := (alookup_eq_none_iff d sc).mp hd
      simp [List.nodup_append, h, hd2]

theorem nodup_akeys_foldl_rrfStep (l : List (String × ℚ × RetrievedEvidence))
    (acc : List (String × RRFEntry)) (h : (akeys acc).Nodup) :
    (akeys (l.foldl rrfStep acc)).Nodup := by
  induction l generalizing acc with
  | nil => exact h
  | cons p t ih =>
      rw [List.foldl_cons]
      exact ih _ (nodup_akeys_rrfUpdate _ _ _ _ h)

theorem nodup_akeys_rrf_scores (k : ℕ) (es : List RetrievedEvidence) :
    (akeys (rrf_scores k es)).Nodup := by
  rw [rrf_scores_eq_fold]
  exact nodup_akeys_foldl_rrfStep _ [] (by simp [akeys])

theorem alookup_of_mem_of_nodup {β : Type} (l : List (String × β))
    (p : String × β) (hn : (akeys l).Nodup) (hm : p ∈ l) :
    alookup p.1 l = some p.2 := by
  induction l with
  | nil => cases hm
  | cons q t ih =>
      have hcons : (q.1 :: akeys t).Nodup := by simpa [akeys] using hn
      have hn2 : (akeys t).Nodup := (List.nodup_cons.mp hcons).2
      have hq1 : q.1 ∉ akeys t := (List.nodup_cons.mp hcons).1
      rcases List.mem_cons.mp hm with h | h
      · subst h
        simp [alookup]
      · have hmem : p.1 ∈ akeys t := by
          simp only [akeys, List.mem_map]
          exact ⟨p, h, rfl⟩
        have hq : ¬ q.1 = p.1 := by
          intro he
          rw [he] at hq1
          exact hq1 hmem
        simp [alookup, hq, ih hn2 h]

theorem keyScore_append (c : String) (l1 l2 : List (String × ℚ × RetrievedEvidence)) :
    keyScore c (l1 ++ l2) = keyScore c l1 + keyScore c l2 := by
  simp [keyScore, List.filter_append]

theorem keyScore_flatten (c : String) (L : List (List (String × ℚ × RetrievedEvidence))) :
    keyScore c L.flatten = (L.map (keyScore c)).sum := by
  induction L with
  | nil => simp [keyScore]
  | cons l t ih => simp [keyScore_append, ih]

theorem keyScore_group (k : ℕ) (c : String) (l : List (ℕ × RetrievedEvidence)) :
    keyScore c (l.map (fun re => (re.2.content, ((1 : ℚ) / ((k : ℚ) + re.1 + 1), re.2)))) =
      ((l.filter (fun re => re.2.content = c)).map
        (fun re => (1 : ℚ) / ((k : ℚ) + re.1 + 1))).sum := by
  unfold keyScore
  rw [List.filter_map, List.map_map]
  rfl

theorem keyScore_contribsOf (k : ℕ) (es : List RetrievedEvidence) (c : String) :
    keyScore c (contribsOf k es) = rrfSpecScore es k c := by
  unfold contribsOf rrfSpecScore
  rw [keyScore_flatten, List.map_map]
  congr 1
  apply List.map_congr_left
  intro g _
  exact keyScore_group k c g.2.enum

theorem map_option_or {α β : Type} (f : α → β) (a b : Option α) :
    (a.or b).map f = (a.map f).or (b.map f) := by
  cases a <;> rfl

theorem find?_group (c : String) (k : ℕ) :
    ∀ (n : ℕ) (l : List RetrievedEvidence),
      (((List.enumFrom n l).map
          (fun re => (re.2.content, ((1 : ℚ) / ((k : ℚ) + re.1 + 1), re.2)))).find?
          (fun p => p.1 = c)).map (fun p => p.2.2) =
        l.find? (fun e => e.content = c)
  | _, [] => rfl
  | n, a :: t => by
      simp only [List.enumFrom, List.map_cons]
      by_cases ha : a.content = c
      · simp [List.find?_cons, ha]
      · rw [List.find?_cons_of_neg _ (by simpa using ha),
          List.find?_cons_of_neg _ (by simpa using ha)]
        exact find?_group c k (n + 1) t

theorem keyFirst_contribsOf (k : ℕ) (es : List RetrievedEvidence) (c : String) :
    keyFirst c (contribsOf k es) = (procOrder es).find? (fun e => e.content = c) := by
  unfold keyFirst contribsOf procOrder
  induction sortedGroups es with
  | nil => rfl
  | cons g gs ih =>
      simp only [List.map_cons, List.flatten_cons, List.find?_append, map_option_or, ih]
      congr 1
      exact find?_group c k 0 g.2

theorem alookup_rrf_scores (k : ℕ) (es : List RetrievedEvidence) (c : String) :
    alookup c (rrf_scores k es) =
      ((procOrder es).find? (fun e => e.content = c)).map
        (fun e => (⟨rrfSpecScore es k c, e⟩ : RRFEntry)) := by
  rw [rrf_scores_eq_fold, alookup_foldl_rrfStep]
  simp only [alookup, keyScore_contribsOf, keyFirst_contribsOf]

theorem mem_rrf_scores (k : ℕ) (es : List RetrievedEvidence)
    (p : String × RRFEntry) (hm : p ∈ rrf_scores k es) :
    p.2.evidence.content = p.1 ∧ p.2.score = rrfSpecScore es k p.1 ∧
      (procOrder es).find? (fun e => e.content = p.1) = some p.2.evidence := by
  have hl := alookup_of_mem_of_nodup _ p (nodup_akeys_rrf_scores k es) hm
  rw [alookup_rrf_scores] at hl
  cases hf : (procOrder es).find? (fun e => e.content = p.1) with
  | none => rw [hf] at hl; cases hl
  | some e0 =>
      rw [hf] at hl
      simp only [Option.map_some'] at hl
      have he : p.2 = ⟨rrfSpecScore es k p.1, e0⟩ := (Option.some.inj hl).symm
      have hc : e0.content = p.1 := by
        have := List.find?_some hf
        simpa using this
      refine ⟨?_, ?_, ?_⟩
      · rw [he]; exact hc
      · rw [he]
      · rw [he]

theorem entryDescLe_trans (a b c : String × RRFEntry) :
    entryDescLe a b → entryDescLe b c → entryDescLe a c := by
  simp only [entryDescLe, decide_eq_true_eq]
  intro h1 h2
  exact le_trans h2 h1

theorem entryDescLe_total (a b : String × RRFEntry) :
    entryDescLe a b || entryDescLe b a := by
  simp only [entryDescLe, Bool.or_eq_true, decide_eq_true_eq]
  exact le_total b.2.score a.2.score

theorem rrf_mem_char (es : List RetrievedEvidence) (k : ℕ)
    (e : RetrievedEvidence) (he : e ∈ reciprocal_rank_fusion es k) :
    ∃ e0, (procOrder es).find? (fun x => x.content = e.content) = some e0 ∧
      e = { e0 with confidence := rrfSpecScore es k e.content } := by
  unfold reciprocal_rank_fusion at he
  rcases List.mem_map.mp he with ⟨p, hp, hpe⟩
  have hp2 : p ∈ rrf_scores k es := List.mem_mergeSort.mp hp
  obtain ⟨hcont, hscore, hfind⟩ := mem_rrf_scores k es p hp2
  have hec : e.content = p.1 := by
    rw [← hpe]
    exact hcont
  refine ⟨p.2.evidence, ?_, ?_⟩
  · rw [hec, hfind]
  · rw [hec, ← hscore, ← hpe]

theorem rrf_pairwise (es : List RetrievedEvidence) (k : ℕ) :
    (reciprocal_rank_fusion es k).Pairwise (fun a b => b.confidence ≤ a.confidence) := by
  unfold reciprocal_rank_fusion
  rw [List.pairwise_map]
  have hs := List.sorted_mergeSort entryDescLe_trans entryDescLe_total (rrf_scores k es)
  exact hs.imp (fun h => by simpa [entryDescLe] using h)

theorem rrf_map_content (es : List RetrievedEvidence) (k : ℕ) :
    (reciprocal_rank_fusion es k).map (fun e => e.content) =
      ((rrf_scores k es).mergeSort entryDescLe).map (fun p => p.1) := by
  unfold reciprocal_rank_fusion
  rw [List.map_map]
  apply List.map_congr_left
  intro p hp
  exact (mem_rrf_scores k es p (List.mem_mergeSort.mp hp)).1

theorem rrf_contents_nodup (es : List RetrievedEvidence) (k : ℕ) :
    ((reciprocal_rank_fusion es k).map (fun e => e.content)).Nodup := by
  rw [rrf_map_content]
  have hperm : List.Perm (((rrf_scores k es).mergeSort entryDescLe).map (fun p => p.1))
      ((rrf_scores k es).map (fun p => p.1)) :=
    (List.mergeSort_perm (rrf_scores k es) entryDescLe).map _
  exact hperm.nodup_iff.mpr (nodup_akeys_rrf_scores k es)

theorem rrf_contents_iff (es : List RetrievedEvidence) (k : ℕ) (c : String) :
    c ∈ (reciprocal_rank_fusion es k).map (fun e => e.content) ↔
      c ∈ (procOrder es).map (fun e => e.content) := by
  rw [rrf_map_content]
  have hperm : List.Perm (((rrf_scores k es).mergeSort entryDescLe).map (fun p => p.1))
      ((rrf_scores k es).map (fun p => p.1)) :=
    (List.mergeSort_perm (rrf_scores k es) entryDescLe).map _
  rw [hperm.mem_iff]
  constructor
  · intro hc
    have hne : alookup c (rrf_scores k es) ≠ none := by
      rw [Ne, alookup_eq_none_iff]
      exact fun h => h hc
    rw [alookup_rrf_scores] at hne
    cases hfind : (procOrder es).find? (fun e => e.content = c) with
    | none => rw [hfind] at hne; exact absurd rfl hne
    | some e0 =>
        have : e0.content = c := by simpa using List.find?_some hfind
        rw [List.mem_map]
        exact ⟨e0, List.mem_of_find?_eq_some hfind, this⟩
  · intro hc
    rcases List.mem_map.mp hc with ⟨e0, he0, hce⟩
    have hsome : ((procOrder es).find? (fun e => e.content = c)).isSome := by
      rw [List.find?_isSome]
      exact ⟨e0, he0, by simpa using hce⟩
    have hne : alookup c (rrf_scores k es) ≠ none := by
      rw [alookup_rrf_scores]
      cases hfind : (procOrder es).find? (fun e => e.content = c) with
      | none => rw [hfind] at hsome; simp at hsome
      | some e1 => simp
    rw [Ne, alookup_eq_none_iff, not_not] at hne
    exact hne

/-- Claim C6: in reciprocal-rank fusion the input is grouped by source, each
group is ranked by original confidence descending, the item at zero-based
rank r contributes 1/(60+r+1) under its content key, identical contents
accumulate their scores by summation, the output is sorted descending by
accumulated score with each item's confidence overwritten by that score, and
no two output items share a content. -/
theorem rrf_ranking_scoring_dedup (es : List RetrievedEvidence) :
    ((reciprocal_rank_fusion es 60).map (fun e => e.content)).Nodup ∧
    (reciprocal_rank_fusion es 60).Pairwise (fun a b => b.confidence ≤ a.confidence) ∧
    ∀ e ∈ reciprocal_rank_fusion es 60, e.confidence = rrfSpecScore es 60 e.content := by
  refine ⟨rrf_contents_nodup es 60, rrf_pairwise es 60, ?_⟩
  intro e he
  rcases rrf_mem_char es 60 e he with ⟨e0, _, he2⟩
  conv_lhs => rw [he2]

/-- Claim C10: RRF merges identical contents also within a single source
group; every occurrence contributes at its own within-group rank; exactly
one item per distinct content appears in the output, and the surviving
evidence object is the first one encountered in processing order (groups in
first-appearance order, each in descending original-confidence order), with
only its confidence replaced by the accumulated score. -/
theorem rrf_duplicate_merging_representative (es : List RetrievedEvidence) :
    (∀ e ∈ reciprocal_rank_fusion es 60,
      ∃ e0, (procOrder es).find? (fun x => x.content = e.content) = some e0 ∧
        e = { e0 with confidence := rrfSpecScore es 60 e.content }) ∧
    ((reciprocal_rank_fusion es 60).map (fun e => e.content)).Nodup ∧
    (∀ c, c ∈ (reciprocal_rank_fusion es 60).map (fun e => e.content) ↔
      c ∈ (procOrder es).map (fun e => e.content)) :=
  ⟨fun e he => rrf_mem_char es 60 e he, rrf_contents_nodup es 60,
    fun c => rrf_contents_iff es 60 c⟩

end MedRAG

namespace MedRAG

theorem confDescLe_trans (a b c : RetrievedEvidence) :
    confDescLe a b → confDescLe b c → confDescLe a c := by
  simp only [confDescLe, decide_eq_true_eq]
  intro h1 h2
  exact le_trans h2 h1

theorem confDescLe_total (a b : RetrievedEvidence) :
    confDescLe a b || confDescLe b a := by
  simp only [confDescLe, Bool.or_eq_true, decide_eq_true_eq]
  exact le_total b.confidence a.confidence

theorem getattr_sparse_weight : getattrQ "FUSION_WEIGHT_SPARSE" (1/2) = 1/5 := rfl

theorem getattr_pubmed_weight : getattrQ "FUSION_WEIGHT_PUBMED" (1/2) = 1/2 := rfl

theorem weightOf_eq (s : String) :
    weightOf s =
      if s = "kg" then (1 : ℚ)/2
      else if s = "vector" then 3/10
      else if s = "sparse" then 1/5
      else if s = "pubmed" then 1/2
      else 1 := by
  unfold weightOf
  rw [getattr_sparse_weight, getattr_pubmed_weight]
  rfl

/-- On a non-empty input without the dense-and-sparse combination,
fuse_evidence takes the weighted-fusion branch. -/
theorem fuse_weighted_branch (es : List RetrievedEvidence) (hne : es ≠ [])
    (hw : es.filter (fun e => e.source_type = "sparse") = [] ∨
          es.filter (fun e => e.source_type = "vector") = []) :
    (fuse_evidence es).evidences = (es.map reweight).mergeSort confDescLe ∧
    (fuse_evidence es).fusion_method = "weighted_fusion" := by
  have h1 : es.isEmpty = false := by
    cases es with
    | nil => exact absurd rfl hne
    | cons a t => rfl
  have hcond : ((!(es.filter (fun e => e.source_type = "sparse")).isEmpty) &&
      (!(es.filter (fun e => e.source_type = "vector")).isEmpty)) = false := by
    rcases hw with h | h
    · rw [h]
      rfl
    · rw [h]
      simp
  unfold fuse_evidence
  rw [h1]
  simp only [Bool.false_eq_true, if_false, hcond]
  constructor <;> first | rfl | trivial

theorem isEmpty_false_of_ne_nil {α : Type} (l : List α) (h : l ≠ []) :
    l.isEmpty = false := by
  cases l with
  | nil => exact absurd rfl h
  | cons a t => rfl

/-- On a non-empty input containing both a sparse-source and a dense-source
item, fuse_evidence takes the RRF branch. -/
theorem fuse_rrf_branch (es : List RetrievedEvidence) (hne : es ≠ [])
    (hs : es.filter (fun e => e.source_type = "sparse") ≠ [])
    (hv : es.filter (fun e => e.source_type = "vector") ≠ []) :
    (fuse_evidence es).evidences = reciprocal_rank_fusion es 60 ∧
    (fuse_evidence es).fusion_method = "reciprocal_rank_fusion" := by
  have h1 : es.isEmpty = false := isEmpty_false_of_ne_nil es hne
  have hcond : ((!(es.filter (fun e => e.source_type = "sparse")).isEmpty) &&
      (!(es.filter (fun e => e.source_type = "vector")).isEmpty)) = true := by
    rw [isEmpty_false_of_ne_nil _ hs, isEmpty_false_of_ne_nil _ hv]
    rfl
  unfold fuse_evidence
  rw [h1]
  simp only [Bool.false_eq_true, if_false, hcond, if_true]
  constructor <;> first | rfl | trivial

/-- Claim C8 (amended): the fusion-method tag is "none" on the empty list,
"reciprocal_rank_fusion" when both a sparse-source and a dense-source item
are present, and "weighted_fusion" otherwise. -/
theorem fuse_method_selection (es : List RetrievedEvidence) :
    (fuse_evidence es).fusion_method =
      if es = [] then "none"
      else if es.filter (fun e => e.source_type = "sparse") ≠ [] ∧
              es.filter (fun e => e.source_type = "vector") ≠ [] then
        "reciprocal_rank_fusion"
      else "weighted_fusion" := by
  by_cases hnil : es = []
  · subst hnil
    rw [if_pos rfl]
    rfl
  · rw [if_neg hnil]
    by_cases hboth : es.filter (fun e => e.source_type = "sparse") ≠ [] ∧
        es.filter (fun e => e.source_type = "vector") ≠ []
    · rw [if_pos hboth]
      exact (fuse_rrf_branch es hnil hboth.1 hboth.2).2
    · rw [if_neg hboth]
      have hw : es.filter (fun e => e.source_type = "sparse") = [] ∨
          es.filter (fun e => e.source_type = "vector") = [] := by
        rcases not_and_or.mp hboth with h | h
        · exact Or.inl (not_not.mp h)
        · exact Or.inr (not_not.mp h)
      exact (fuse_weighted_branch es hnil hw).2

/-- Claim C8 (counterexample to the literal tag names): the code's tags are
"reciprocal_rank_fusion" and "weighted_fusion", not "reciprocal_rank" and
"weighted". -/
theorem fuse_method_tag_counterexample :
    (fuse_evidence [⟨"vector", "a", 9/10, []⟩, ⟨"sparse", "b", 7/10, []⟩]).fusion_method =
      "reciprocal_rank_fusion" ∧
    (fuse_evidence [⟨"vector", "a", 9/10, []⟩, ⟨"sparse", "b", 7/10, []⟩]).fusion_method ≠
      "reciprocal_rank" ∧
    (fuse_evidence [⟨"kg", "c", 9/10, []⟩]).fusion_method = "weighted_fusion" ∧
    (fuse_evidence [⟨"kg", "c", 9/10, []⟩]).fusion_method ≠ "weighted" := by
  refine ⟨rfl, ?_, rfl, ?_⟩ <;> decide

theorem mean_eq (l : List RetrievedEvidence) :
    (if l.isEmpty then (0 : ℚ) else ((l.map (fun e => e.confidence)).sum) / (l.length : ℚ)) =
      ((l.map (fun e => e.confidence)).sum) / (l.length : ℚ) := by
  cases l with
  | nil => simp
  | cons a t => rfl

/-- Claim C7: the combined confidence is the arithmetic mean of the
post-fusion confidences of the returned evidence list; the empty input
yields no evidence and confidence 0; the two-item weighted example yields
adjusted confidences 0.45 and 0.24 and combined confidence 0.345. -/
theorem fuse_combined_is_mean :
    (fuse_evidence []).evidences = [] ∧ (fuse_evidence []).combined_confidence = 0 ∧
    (∀ es, (fuse_evidence es).combined_confidence =
      ((fuse_evidence es).evidences.map (fun e => e.confidence)).sum /
        ((fuse_evidence es).evidences.length : ℚ)) ∧
    (fuse_evidence [⟨"kg", "a", 9/10, []⟩, ⟨"vector", "b", 4/5, []⟩]).evidences.map
      (fun e => e.confidence) = [9/20, 6/25] ∧
    (fuse_evidence [⟨"kg", "a", 9/10, []⟩, ⟨"vector", "b", 4/5, []⟩]).combined_confidence =
      69/200 := by
  refine ⟨rfl, rfl, ?_, ?_, ?_⟩
  · intro es
    unfold fuse_evidence
    by_cases hnil : es.isEmpty = true
    · rw [if_pos hnil]
      simp
    · rw [if_neg hnil]
      exact mean_eq _
  · simp [fuse_evidence, reweight, weightOf, getattrQ, agentConfigAttr,
      FUSION_WEIGHT_KG, FUSION_WEIGHT_VECTOR, List.mergeSort, List.merge, confDescLe]
    norm_num
  · simp [fuse_evidence, reweight, weightOf, getattrQ, agentConfigAttr,
      FUSION_WEIGHT_KG, FUSION_WEIGHT_VECTOR, List.mergeSort, List.merge, confDescLe]
    norm_num
    exact List.cons_ne_nil _ _

/-- Claim C9: on the weighted path the returned evidence list is sorted
descending by adjusted confidence, and items with equal adjusted confidence
keep their relative input order. -/
theorem weighted_fusion_sorted_and_stable (es : List RetrievedEvidence)
    (hw : es.filter (fun e => e.source_type = "sparse") = [] ∨
          es.filter (fun e => e.source_type = "vector") = []) :
    (fuse_evidence es).evidences.Pairwise (fun a b => b.confidence ≤ a.confidence) ∧
    ∀ a b, List.Sublist [a, b] (es.map reweight) → a.confidence = b.confidence →
      List.Sublist [a, b] (fuse_evidence es).evidences := by
  by_cases hnil : es = []
  · subst hnil
    refine ⟨?_, ?_⟩
    · have h : (fuse_evidence ([] : List RetrievedEvidence)).evidences = [] := rfl
      rw [h]
      exact List.Pairwise.nil
    · intro a b hsub _
      simp at hsub
  · obtain ⟨hev, _⟩ := fuse_weighted_branch es hnil hw
    rw [hev]
    refine ⟨?_, ?_⟩
    · have hs := List.sorted_mergeSort confDescLe_trans confDescLe_total (es.map reweight)
      exact hs.imp (fun h => by simpa [confDescLe] using h)
    · intro a b hsub heq
      exact List.pair_sublist_mergeSort confDescLe_trans confDescLe_total
        (by simp [confDescLe, heq]) hsub

/-- Claim C3 (amended): on the weighted path each output item is an input
item with its confidence multiplied by the per-source weight, which is 0.5
for kg, 0.3 for vector, 0.2 for sparse (the configured value, found by the
getattr lookup), 0.5 for pubmed and 1 otherwise. -/
theorem weighted_fusion_per_source_weights (es : List RetrievedEvidence)
    (hw : es.filter (fun e => e.source_type = "sparse") = [] ∨
          es.filter (fun e => e.source_type = "vector") = []) :
    ∀ e ∈ (fuse_evidence es).evidences, ∃ e0, e0 ∈ es ∧
      e.source_type = e0.source_type ∧ e.content = e0.content ∧
      e.metadata = e0.metadata ∧
      e.confidence = e0.confidence *
        (if e0.source_type = "kg" then (1 : ℚ)/2
         else if e0.source_type = "vector" then 3/10
         else if e0.source_type = "sparse" then 1/5
         else if e0.source_type = "pubmed" then 1/2
         else 1) := by
  intro e he
  by_cases hnil : es = []
  · subst hnil
    have h : (fuse_evidence ([] : List RetrievedEvidence)).evidences = [] := rfl
    rw [h] at he
    cases he
  · obtain ⟨hev, _⟩ := fuse_weighted_branch es hnil hw
    rw [hev] at he
    rcases List.mem_map.mp (List.mem_mergeSort.mp he) with ⟨e0, he0, heq⟩
    subst heq
    refine ⟨e0, he0, rfl, rfl, rfl, ?_⟩
    show e0.confidence * weightOf e0.source_type = _
    rw [weightOf_eq]

/-- Claim C3 (counterexample): a sparse item's confidence is multiplied by
0.2, not by the claimed 0.5. -/
theorem sparse_weight_counterexample :
    (fuse_evidence [⟨"sparse", "s", 1, []⟩]).evidences =
      [⟨"sparse", "s", 1/5, []⟩] ∧ ¬ ((1 : ℚ)/5 = 1 * (1/2)) := by
  constructor
  · simp [fuse_evidence, reweight, weightOf, getattrQ, agentConfigAttr,
      FUSION_WEIGHT_SPARSE, List.mergeSort]
  · norm_num

end MedRAG

namespace MedRAG

theorem fuse_metadata_nil (es : List RetrievedEvidence) :
    (fuse_evidence es).metadata = [] := by
  unfold fuse_evidence
  by_cases h : es.isEmpty = true
  · rw [if_pos h]
  · rw [if_neg h]

theorem alookup_fallbackMeta_applied (s : RetrievalStrategy) (c : ℚ) :
    alookup "fallback_applied" (fallbackMeta [] s c) = some (MetaVal.mb true) := rfl

/-- Query whose preprocessing suggested the KG-only strategy. -/
def qKG : ProcessedQuery :=
  ⟨"q", "q", [], QueryType.DEFINITION, RetrievalStrategy.KG_ONLY, UserMode.PATIENT⟩

/-- A low-confidence knowledge-graph evidence. -/
def kgLow : RetrievedEvidence := ⟨"kg", "k1", 1/5, []⟩

/-- A mid-confidence sparse evidence. -/
def spMid : RetrievedEvidence := ⟨"sparse", "s1", 7/10, []⟩

/-- A dense evidence. -/
def vecEv : RetrievedEvidence := ⟨"vector", "v1", 9/10, []⟩

/-- Backend environment: kg yields one low-confidence item, sparse one item,
vector nothing, literature nothing. -/
def envC2 : BackendEnv :=
  { kg := fun _ => Except.ok [kgLow]
    vector := fun _ => Except.ok []
    sparse := fun _ => Except.ok [spMid]
    pubmed := fun _ _ => Except.ok []
    pubmedRetrieverEnabled := false }

/-- Backend environment whose kg backend raises. -/
def envKgFail : BackendEnv :=
  { kg := fun _ => Except.error (PyError.backendError "neo4j down")
    vector := fun _ => Except.ok [vecEv]
    sparse := fun _ => Except.ok [spMid]
    pubmed := fun _ _ => Except.ok []
    pubmedRetrieverEnabled := false }

/-- Spec-modelled configuration: fallback enabled at the default 0.5
threshold, literature augmentation off. -/
def cfgC2 : OrchestratorConfig :=
  { pubmed_enabled := false
    top_k_pubmed := 5
    ENABLE_HYBRID_FALLBACK := true
    FALLBACK_CONFIDENCE_THRESHOLD := 1/2 }

theorem fuse_kgLow : fuse_evidence [kgLow] =
    { evidences := [⟨"kg", "k1", 1/10, []⟩], combined_confidence := 1/10,
      fusion_method := "weighted_fusion", metadata := [] } := by
  simp [fuse_evidence, kgLow, reweight, weightOf, getattrQ, agentConfigAttr,
    FUSION_WEIGHT_KG, List.mergeSort, confDescLe]
  norm_num

theorem fuse_kgLow_spMid : fuse_evidence [kgLow, spMid] =
    { evidences := [⟨"sparse", "s1", 7/50, []⟩, ⟨"kg", "k1", 1/10, []⟩],
      combined_confidence := 3/25,
      fusion_method := "weighted_fusion", metadata := [] } := by
  simp [fuse_evidence, kgLow, spMid, reweight, weightOf, getattrQ, agentConfigAttr,
    FUSION_WEIGHT_KG, FUSION_WEIGHT_SPARSE, List.mergeSort, List.merge, confDescLe]
  norm_num
  exact List.cons_ne_nil _ _

/-- Claim C4 (counterexample): with strategy FULL_HYBRID, a raising graph
backend aborts the whole dispatch — the dense and sparse evidence is lost
and the backend error escapes the dispatcher as an exception, contradicting
the claimed per-backend isolation. -/
theorem mapped_backend_failure_counterexample :
    retrieve_with_strategy cfgC2 envKgFail qKG RetrievalStrategy.FULL_HYBRID =
      Except.error (PyError.backendError "neo4j down") := rfl

/-- Claim C4 (amended): only the literature call is isolated — when the
mapped backends succeed, a literature failure contributes no evidence and
dispatch still returns their concatenation; when a mapped backend raises,
its error propagates out of the dispatcher unchanged. -/
theorem dispatcher_fault_isolation (cfg : OrchestratorConfig) (env : BackendEnv)
    (q : ProcessedQuery) (strategy : RetrievalStrategy) :
    (∀ evs, mappedRetrieve env q strategy = Except.ok evs →
      retrieve_with_strategy cfg env q strategy = Except.ok (evs ++
        (if cfg.pubmed_enabled && env.pubmedRetrieverEnabled then
          match env.pubmed q cfg.top_k_pubmed with
          | Except.ok ps => ps
          | Except.error _ => []
         else []))) ∧
    (∀ err, mappedRetrieve env q strategy = Except.error err →
      retrieve_with_strategy cfg env q strategy = Except.error err) := by
  constructor
  · intro evs hok
    simp only [retrieve_with_strategy, hok, bind, Except.bind]
    by_cases hpm : (cfg.pubmed_enabled && env.pubmedRetrieverEnabled) = true
    · rw [if_pos hpm, if_pos hpm]
      cases hp : env.pubmed q cfg.top_k_pubmed with
      | ok ps => rfl
      | error e => simp [pure, Except.pure]
    · rw [if_neg hpm, if_neg hpm]
      simp [pure, Except.pure]
  · intro err herr
    simp only [retrieve_with_strategy, herr, bind, Except.bind]

/-- Claim C4 (witness for the amended theorem): both branches exercised on
concrete environments. -/
theorem dispatcher_fault_isolation_witness :
    (retrieve_with_strategy cfgC2 envC2 qKG RetrievalStrategy.FULL_HYBRID =
      Except.ok ([kgLow, spMid] ++
        (if cfgC2.pubmed_enabled && envC2.pubmedRetrieverEnabled then
          match envC2.pubmed qKG cfgC2.top_k_pubmed with
          | Except.ok ps => ps
          | Except.error _ => []
         else []))) ∧
    retrieve_with_strategy cfgC2 envKgFail qKG RetrievalStrategy.FULL_HYBRID =
      Except.error (PyError.backendError "neo4j down") :=
  ⟨(dispatcher_fault_isolation cfgC2 envC2 qKG RetrievalStrategy.FULL_HYBRID).1
      [kgLow, spMid] rfl,
    (dispatcher_fault_isolation cfgC2 envKgFail qKG RetrievalStrategy.FULL_HYBRID).2
      (PyError.backendError "neo4j down") rfl⟩

/-- Claim C5: within one execute call the FULL_HYBRID retry fires iff
fallback is enabled, the primary combined confidence is strictly below the
threshold, and the executed strategy was not FULL_HYBRID; the result is
fully determined by at most one retry (one extra dispatch-and-fuse with
FULL_HYBRID), with no recursion, and the fallback marker appears in the
metadata exactly when the retry fired. -/
theorem execute_fallback_characterization (cfg : OrchestratorConfig)
    (env : BackendEnv) (q : ProcessedQuery) (r1 r2 : List RetrievedEvidence)
    (h1 : retrieve_with_strategy cfg env q (decide_strategy q) = Except.ok r1)
    (h2 : retrieve_with_strategy cfg env q RetrievalStrategy.FULL_HYBRID =
      Except.ok r2) :
    execute cfg env q = Except.ok (
      if cfg.ENABLE_HYBRID_FALLBACK = true ∧
         (fuse_evidence r1).combined_confidence < cfg.FALLBACK_CONFIDENCE_THRESHOLD ∧
         decide_strategy q ≠ RetrievalStrategy.FULL_HYBRID then
        { fuse_evidence r2 with
          metadata := fallbackMeta (fuse_evidence r2).metadata (decide_strategy q)
            (fuse_evidence r2).combined_confidence }
      else fuse_evidence r1) ∧
    (∀ f, execute cfg env q = Except.ok f →
      (alookup "fallback_applied" f.metadata = some (MetaVal.mb true) ↔
        (cfg.ENABLE_HYBRID_FALLBACK = true ∧
         (fuse_evidence r1).combined_confidence < cfg.FALLBACK_CONFIDENCE_THRESHOLD ∧
         decide_strategy q ≠ RetrievalStrategy.FULL_HYBRID))) := by
  have hchar : execute cfg env q = Except.ok (
      if cfg.ENABLE_HYBRID_FALLBACK = true ∧
         (fuse_evidence r1).combined_confidence < cfg.FALLBACK_CONFIDENCE_THRESHOLD ∧
         decide_strategy q ≠ RetrievalStrategy.FULL_HYBRID then
        { fuse_evidence r2 with
          metadata := fallbackMeta (fuse_evidence r2).metadata (decide_strategy q)
            (fuse_evidence r2).combined_confidence }
      else fuse_evidence r1) := by
    unfold execute
    simp only [h1, h2, bind, Except.bind]
    by_cases hE : cfg.ENABLE_HYBRID_FALLBACK = true
    · rw [if_pos hE]
      by_cases hlt : (fuse_evidence r1).combined_confidence <
          cfg.FALLBACK_CONFIDENCE_THRESHOLD
      · rw [if_pos hlt]
        by_cases hst : decide_strategy q ≠ RetrievalStrategy.FULL_HYBRID
        · rw [if_pos hst, if_pos ⟨hE, hlt, hst⟩]
          rfl
        · rw [if_neg hst, if_neg (fun h => hst h.2.2)]
          rfl
      · rw [if_neg hlt, if_neg (fun h => hlt h.2.1)]
        rfl
    · rw [if_neg hE, if_neg (fun h => hE h.1)]
      rfl
  refine ⟨hchar, ?_⟩
  intro f hf
  rw [hchar] at hf
  have hfe := Except.ok.inj hf
  by_cases hcond : cfg.ENABLE_HYBRID_FALLBACK = true ∧
      (fuse_evidence r1).combined_confidence < cfg.FALLBACK_CONFIDENCE_THRESHOLD ∧
      decide_strategy q ≠ RetrievalStrategy.FULL_HYBRID
  · rw [if_pos hcond] at hfe
    constructor
    · intro _
      exact hcond
    · intro _
      rw [← hfe]
      show alookup "fallback_applied"
        (fallbackMeta (fuse_evidence r2).metadata (decide_strategy q)
          (fuse_evidence r2).combined_confidence) = some (MetaVal.mb true)
      rw [fuse_metadata_nil]
      exact alookup_fallbackMeta_applied _ _
  · rw [if_neg hcond] at hfe
    constructor
    · intro hfa
      rw [← hfe, fuse_metadata_nil] at hfa
      cases hfa
    · intro h
      exact absurd h hcond

/-- Claim C5 (witness): on the concrete low-confidence KG-only scenario the
characterization applies with both dispatches evaluated. -/
theorem execute_fallback_characterization_witness :
    execute cfgC2 envC2 qKG = Except.ok (
      if cfgC2.ENABLE_HYBRID_FALLBACK = true ∧
         (fuse_evidence [kgLow]).combined_confidence <
           cfgC2.FALLBACK_CONFIDENCE_THRESHOLD ∧
         decide_strategy qKG ≠ RetrievalStrategy.FULL_HYBRID then
        { fuse_evidence [kgLow, spMid] with
          metadata := fallbackMeta (fuse_evidence [kgLow, spMid]).metadata
            (decide_strategy qKG) (fuse_evidence [kgLow, spMid]).combined_confidence }
      else fuse_evidence [kgLow]) :=
  (execute_fallback_characterization cfgC2 envC2 qKG [kgLow] [kgLow, spMid]
    rfl rfl).1

/-- Claim C2 (code bug): when the fallback retry fires, the metadata key
original_confidence receives round(fused.combined_confidence, 2) of the
post-retry result (the variable has already been reassigned), not the
pre-retry combined confidence: here the primary run's combined confidence
is 1/10 but the stored value is 3/25, the retry's confidence. -/
theorem fallback_original_confidence_is_post_retry :
    (fuse_evidence [kgLow]).combined_confidence = 1/10 ∧
    retrieve_with_strategy cfgC2 envC2 qKG (decide_strategy qKG) =
      Except.ok [kgLow] ∧
    retrieve_with_strategy cfgC2 envC2 qKG RetrievalStrategy.FULL_HYBRID =
      Except.ok [kgLow, spMid] ∧
    execute cfgC2 envC2 qKG = Except.ok
      { evidences := [⟨"sparse", "s1", 7/50, []⟩, ⟨"kg", "k1", 1/10, []⟩],
        combined_confidence := 3/25, fusion_method := "weighted_fusion",
        metadata := [("fallback_applied", MetaVal.mb true),
          ("original_strategy", MetaVal.ms "RetrievalStrategy.KG_ONLY"),
          ("fallback_strategy", MetaVal.ms "full_hybrid"),
          ("original_confidence", MetaVal.mq (3/25))] } ∧
    round2 ((fuse_evidence [kgLow]).combined_confidence) ≠ (3/25 : ℚ) := by
  refine ⟨?_, rfl, rfl, ?_, ?_⟩
  · rw [fuse_kgLow]
  · simp only [execute, decide_strategy, retrieve_with_strategy, mappedRetrieve,
      bind, Except.bind, pure, Except.pure, envC2, cfgC2, qKG, Bool.false_and,
      Bool.and_self, if_false, if_true]
    have hfl : Rat.floor (12 : ℚ) = 12 := by decide
    norm_num [fuse_kgLow, fuse_kgLow_spMid, fallbackMeta, dictSet, alookup,
      round2, strategyStr, hfl]
    simp +decide
  · rw [fuse_kgLow]
    have hfl : Rat.floor (10 : ℚ) = 10 := by decide
    norm_num [round2, hfl]

/-- Claim C1 (code bug): config.py defines none of the four attributes the
orchestration core reads (settings.pubmed_enabled, settings.top_k_pubmed,
agent_config.ENABLE_HYBRID_FALLBACK,
agent_config.FALLBACK_CONFIDENCE_THRESHOLD), so execute never completes
normally: whatever the backends return, the dispatch or the fallback check
raises AttributeError before a FusedEvidence can be returned. -/
theorem execute_config_reads_always_fail (env : BackendEnv) (q : ProcessedQuery) :
    (settingsAttr "pubmed_enabled" = none ∧ settingsAttr "top_k_pubmed" = none ∧
     agentConfigAttr "ENABLE_HYBRID_FALLBACK" = none ∧
     agentConfigAttr "FALLBACK_CONFIDENCE_THRESHOLD" = none) ∧
    ∃ err, executePy env q = Except.error err := by
  refine ⟨⟨rfl, rfl, rfl, rfl⟩, ?_⟩
  cases hm : mappedRetrieve env q (decide_strategy q) with
  | error err =>
      refine ⟨err, ?_⟩
      simp only [executePy, retrieve_with_strategyPy, hm, bind, Except.bind]
  | ok evs =>
      refine ⟨PyError.attributeError "Settings" "pubmed_enabled", ?_⟩
      simp only [executePy, retrieve_with_strategyPy, hm, bind, Except.bind]
      rfl

/-- Claim C1 (evaluation at a concrete failing input): with the KG-only
query and a healthy graph backend, the dispatch raises AttributeError on
reading settings.pubmed_enabled. -/
theorem executePy_concrete_attribute_error :
    executePy envC2 qKG =
      Except.error (PyError.attributeError "Settings" "pubmed_enabled") := rfl

end MedRAG

namespace MedRAG

/-- Claim C3 (witness for the amended theorem): the sparse item scaled by
0.2. -/
theorem weighted_fusion_per_source_weights_witness :
    ∃ e0, e0 ∈ [(⟨"sparse", "s", 1, []⟩ : RetrievedEvidence)] ∧
      (⟨"sparse", "s", 1/5, []⟩ : RetrievedEvidence).source_type = e0.source_type ∧
      (⟨"sparse", "s", 1/5, []⟩ : RetrievedEvidence).content = e0.content ∧
      (⟨"sparse", "s", 1/5, []⟩ : RetrievedEvidence).metadata = e0.metadata ∧
      (⟨"sparse", "s", 1/5, []⟩ : RetrievedEvidence).confidence = e0.confidence *
        (if e0.source_type = "kg" then (1 : ℚ)/2
         else if e0.source_type = "vector" then 3/10
         else if e0.source_type = "sparse" then 1/5
         else if e0.source_type = "pubmed" then 1/2
         else 1) := by
  have hmem : (⟨"sparse", "s", 1/5, []⟩ : RetrievedEvidence) ∈
      (fuse_evidence [(⟨"sparse", "s", 1, []⟩ : RetrievedEvidence)]).evidences := by
    have h : (fuse_evidence [(⟨"sparse", "s", 1, []⟩ : RetrievedEvidence)]).evidences
        = [⟨"sparse", "s", 1/5, []⟩] := by
      simp [fuse_evidence, reweight, weightOf, getattrQ, agentConfigAttr,
        FUSION_WEIGHT_SPARSE, List.mergeSort]
    rw [h]
    exact List.mem_singleton.mpr rfl
  exact weighted_fusion_per_source_weights [⟨"sparse", "s", 1, []⟩]
    (Or.inr rfl) _ hmem

/-- A knowledge-graph evidence tied with `kgB` after reweighting. -/
def kgA : RetrievedEvidence := ⟨"kg", "a", 2/5, []⟩

/-- A knowledge-graph evidence tied with `kgA` after reweighting. -/
def kgB : RetrievedEvidence := ⟨"kg", "b", 2/5, []⟩

/-- Claim C9 (witness): two equally-weighted kg items keep their input
order in the sorted output. -/
theorem weighted_fusion_sorted_and_stable_witness :
    (fuse_evidence [kgA, kgB]).evidences.Pairwise
      (fun a b => b.confidence ≤ a.confidence) ∧
    List.Sublist [reweight kgA, reweight kgB] (fuse_evidence [kgA, kgB]).evidences := by
  have h := weighted_fusion_sorted_and_stable [kgA, kgB] (Or.inl rfl)
  exact ⟨h.1, h.2 (reweight kgA) (reweight kgB) (List.Sublist.refl _) rfl⟩

/-- Two items with the same content from two different source groups. -/
def rrfEx : List RetrievedEvidence :=
  [⟨"vector", "a", 9/10, []⟩, ⟨"sparse", "a", 7/10, []⟩]

/-- Claim C6 (witness): the two rank-0 contributions 1/61 of the shared
content accumulate to 2/61. -/
theorem rrf_ranking_scoring_dedup_witness :
    ∃ e, e ∈ reciprocal_rank_fusion rrfEx 60 ∧
      e.confidence = rrfSpecScore rrfEx 60 e.content := by
  have hout : reciprocal_rank_fusion rrfEx 60 = [⟨"vector", "a", 2/61, []⟩] := by
    simp [reciprocal_rank_fusion, rrf_scores, sortedGroups, source_groups,
      groupInsert, alookup, rrfGroupFold, rrfUpdate, rrfEx, List.enum,
      List.enumFrom, List.mergeSort, entryDescLe, confDescLe]
    norm_num
  refine ⟨⟨"vector", "a", 2/61, []⟩, ?_, ?_⟩
  · rw [hout]
    exact List.mem_singleton.mpr rfl
  · exact (rrf_ranking_scoring_dedup rrfEx).2.2 _
      (by rw [hout]; exact List.mem_singleton.mpr rfl)

/-- Two items with the same content within one source group. -/
def rrfEx2 : List RetrievedEvidence :=
  [⟨"vector", "a", 9/10, []⟩, ⟨"vector", "a", 1/2, []⟩]

/-- The single fused output item of `rrfEx2`. -/
def exC10 : RetrievedEvidence := ⟨"vector", "a", 123/3782, []⟩

/-- Claim C10 (witness): same-group duplicates contribute 1/61 + 1/62 =
123/3782, one output item survives, represented by the first-processed
(higher-confidence) object. -/
theorem rrf_duplicate_merging_representative_witness :
    ∃ e0, (procOrder rrfEx2).find?
        (fun x => x.content = exC10.content) = some e0 ∧
      exC10 = { e0 with confidence := rrfSpecScore rrfEx2 60 exC10.content } := by
  have hout : reciprocal_rank_fusion rrfEx2 60 = [exC10] := by
    simp only [reciprocal_rank_fusion, rrf_scores, sortedGroups, source_groups,
      groupInsert, rrfGroupFold, rrfUpdate, rrfEx2, exC10, List.enum,
      List.enumFrom, List.foldl]
    norm_num [alookup, List.mergeSort, List.merge, entryDescLe, confDescLe]
  exact (rrf_duplicate_merging_representative rrfEx2).1 _
    (by rw [hout]; exact List.mem_singleton.mpr rfl)

end MedRAG
